import Mathlib

/-!
Shallow embedding of the PCF8574/A MicroPython driver (`pcf8574/pcf8574.py`)
and verification of the specified properties of its port-state engine and
change poller.

Modelling conventions:
* a `bytearray` cell holds a `Nat` below 256 (storing a larger value raises
  `ValueError`, storing a non-int raises `TypeError`);
* the instance attributes `_directions` (a bytearray of 8 direction codes),
  `_input[0]`, `_inverted[0]`, `_lstate[0]`, `_dstate[0]`, `_dstatef`,
  `interrupt` and `changed_pins` form the state record `PCFState`
  (`interrupt` is a Python int, i.e. an unbounded integer);
* bus traffic is explicit: operations that can write return the list of
  bytes written, operations that read take the byte returned by the bus as
  an argument;
* an operation that can raise returns a `POut` carrying an optional
  exception, the object state at the moment the exception propagates, and
  the bytes written before that moment.
-/

/-- Python exception kinds reachable in the translated code. -/
inductive PyErr where
  | valueError
  | typeError
  | indexError
deriving DecidableEq, Repr

/-- `PCF8574.INPUT` -/
def INPUT : Nat := 1

/-- `PCF8574.OUTPUT` -/
def OUTPUT : Nat := 0

/-- `PCF8574.UNDEF` -/
def UNDEF : Nat := 2

/-- The per-instance state of a `PCF8574` object. -/
structure PCFState where
  directions : List Nat
  input : Nat
  inverted : Nat
  lstate : Nat
  dstate : Nat
  dstatef : Bool
  interrupt : Int
  changedPins : List Nat
deriving DecidableEq, Repr

/-- Outcome of an operation: the exception that propagated (if any), the
object state afterwards, and the bytes written to the bus. -/
structure POut where
  err : Option PyErr
  s : PCFState
  writes : List Nat
deriving DecidableEq, Repr

/-- `PCF8574._alter_bitmask`: set (`value = true`) or clear one bit of a
one-cell bitmask.  The source clears with `bitmask[0] & ~(1 << pin)`;
since a bytearray cell is below 256, Python's infinite-width complement
coincides with masking against the 8-bit complement `255 ^^^ (1 <<< pin)`. -/
def alter_bitmask (m : Nat) (pin : Nat) (value : Bool) : Nat :=
  if value then m ||| (1 <<< pin) else m &&& (255 ^^^ (1 <<< pin))

/-- The expression `m >> pin & 1` used throughout the source. -/
def getBit (m : Nat) (pin : Nat) : Nat := (m >>> pin) &&& 1

/-- `PCF8574._write_state`: when the busy flag is clear, recompute the
digital state as `(lstate XOR inverted) OR input` and write that byte; the
flag is raised for the duration of the transaction and cleared again before
returning, so it is clear in the resulting state. -/
def write_state (s : PCFState) : PCFState × List Nat :=
  if s.dstatef then (s, [])
  else
    let d := (s.lstate ^^^ s.inverted) ||| s.input
    ({ s with dstate := d }, [d])

/-- `PCF8574._read_state`: when the busy flag is clear, take the byte `raw`
returned by the bus as the new digital state and xor it with the inverted
mask to refresh the logical state. -/
def read_state (s : PCFState) (raw : Nat) : PCFState :=
  if s.dstatef then s
  else { s with dstate := raw, lstate := raw ^^^ s.inverted }

/-- `PCF8574.read_pin`: refresh the state from the bus byte `raw`, then
return `self._lstate[0] >> pin & 1`. -/
def read_pin (s : PCFState) (raw : Nat) (pin : Nat) : PCFState × Nat :=
  let s1 := read_state s raw
  (s1, getBit s1.lstate pin)

/-- `PCF8574.write_pin`: only honoured when `self._directions[pin]` equals
`OUTPUT`; otherwise nothing at all happens.  Indexing `_directions` out of
range raises `IndexError`. -/
def write_pin (s : PCFState) (pin : Nat) (value : Bool) : POut :=
  if pin < s.directions.length then
    if s.directions.getD pin UNDEF = OUTPUT then
      let s1 := { s with lstate := alter_bitmask s.lstate pin value }
      let r := write_state s1
      ⟨none, r.1, r.2⟩
    else ⟨none, s, []⟩
  else ⟨some PyErr.indexError, s, []⟩

/-- `PCF8574.output_pin` on a single pin index: clear the inversion bit (or
set it when `invert`), clear the input-mask bit, store `OUTPUT` into
`_directions[pin]`, resync `_lstate` from `_dstate`, then write. -/
def output_pin (s : PCFState) (pin : Nat) (invert : Bool) : POut :=
  let s1 := { s with inverted := alter_bitmask s.inverted pin invert }
  let s2 := { s1 with input := alter_bitmask s1.input pin false }
  if pin < s2.directions.length then
    let s3 := { s2 with directions := s2.directions.set pin OUTPUT }
    let s4 := { s3 with lstate := s3.dstate ^^^ s3.inverted }
    let r := write_state s4
    ⟨none, r.1, r.2⟩
  else ⟨some PyErr.indexError, s2, []⟩

/-- `PCF8574.output_pin` on a list argument.  The loop body reads the whole
list `pin` instead of the loop variable `p`, so on a nonempty list the first
iteration evaluates `1 << pin` with `pin` a list and raises `TypeError`
before mutating anything; an empty list skips the loop and falls through to
the resync and write. -/
def output_pin_list (s : PCFState) (pins : List Nat) (_invert : Bool) : POut :=
  match pins with
  | [] =>
    let s1 := { s with lstate := s.dstate ^^^ s.inverted }
    let r := write_state s1
    ⟨none, r.1, r.2⟩
  | _ :: _ => ⟨some PyErr.typeError, s, []⟩

/-- `PCF8574.input_pin` on a single pin index: the inversion and input-mask
bits are updated, and then `self._directions[pin] = self._input` stores the
bytearray object `self._input` (not the int `self.INPUT`) into a bytearray
cell, which raises `TypeError`; the two mask updates have already taken
effect when the exception propagates. -/
def input_pin (s : PCFState) (pin : Nat) (invert : Bool) : POut :=
  let s1 := { s with inverted := alter_bitmask s.inverted pin invert }
  let s2 := { s1 with input := alter_bitmask s1.input pin true }
  ⟨some PyErr.typeError, s2, []⟩

/-- `PCF8574.input_pin` on a list argument: same loop-variable slip as
`output_pin_list`, so a nonempty list raises `TypeError` before any
mutation, and an empty list falls through to the resync and write. -/
def input_pin_list (s : PCFState) (pins : List Nat) (_invert : Bool) : POut :=
  match pins with
  | [] =>
    let s1 := { s with lstate := s.dstate ^^^ s.inverted }
    let r := write_state s1
    ⟨none, r.1, r.2⟩
  | _ :: _ => ⟨some PyErr.typeError, s, []⟩

/-- `PCF8574.invert_pin` on a single pin index: set or clear the inversion
bit, resync `_lstate` from `_dstate`, then write. -/
def invert_pin (s : PCFState) (pin : Nat) (invert : Bool) : PCFState × List Nat :=
  let s1 := { s with inverted := alter_bitmask s.inverted pin invert }
  let s2 := { s1 with lstate := s1.dstate ^^^ s1.inverted }
  write_state s2

/-- A fragment of Python's value universe, enough to state the comparison
`self._directions[pin] == self._input` found in `_poll`: the left operand is
an int drawn from the `_directions` bytearray, the right operand is the
`_input` bytearray object itself.  Python's `==` between an int and a
bytearray is always `False`. -/
inductive PyVal where
  | int (n : Nat)
  | bytes (bs : List Nat)
deriving DecidableEq

/-- Python `==` restricted to the values above: equal only within one type. -/
def pyEq : PyVal → PyVal → Bool
  | .int a, .int b => a == b
  | .bytes a, .bytes b => a == b
  | _, _ => false

/-- One iteration of the loop in `PCF8574._poll`: the guard compares
`self._directions[pin]` (an int) with `self._input` (a bytearray); when it
holds and the candidate bit differs from the stored logical bit, the stored
bit is updated and the two report slots of the pin are set. -/
def poll_step (readstate : Nat) (st : PCFState) (pin : Nat) : PCFState :=
  if pyEq (PyVal.int (st.directions.getD pin UNDEF)) (PyVal.bytes [st.input]) then
    if getBit st.lstate pin ≠ getBit readstate pin then
      { st with
        lstate := alter_bitmask st.lstate pin (getBit readstate pin != 0),
        changedPins :=
          (st.changedPins.set (pin * 2) 1).set (pin * 2 + 1) (getBit readstate pin) }
    else st
  else st

/-- `PCF8574._poll`: store the raw bus byte into `_dstate`, xor it with the
inverted mask into `readstate`, run the per-pin loop over pins 0..7, then
increment the interrupt counter once. -/
def poll (s : PCFState) (raw : Nat) : PCFState :=
  let s0 := { s with dstate := raw }
  let readstate := raw ^^^ s0.inverted
  let s1 := (List.range 8).foldl (poll_step readstate) s0
  { s1 with interrupt := s1.interrupt + 1 }

/-- `PCF8574.reset_int`: zero the change flag `changed_pins[2p]` of every
pin and decrement the interrupt counter by one. -/
def reset_int (s : PCFState) : PCFState :=
  let cp := (List.range 8).foldl (fun a pin => a.set (pin * 2) 0) s.changedPins
  { s with changedPins := cp, interrupt := s.interrupt - 1 }

/-- Models Python `int(x)` applied to each one-character string of a pattern,
as in `bytearray(int(x) for x in direction)`: succeeds exactly on decimal
digits (the patterns exercised here are ASCII), yielding the digit values;
any other character raises `ValueError`. -/
def pyIntDigits (cs : List Char) : Except PyErr (List Nat) :=
  if cs.all Char.isDigit then Except.ok (cs.map fun c => c.toNat - 48)
  else Except.error PyErr.valueError

/-- Models `int(s, 2)` on the pattern strings this driver receives: succeeds
on a nonempty string of binary digits with the usual base-2 value and raises
`ValueError` otherwise (Python's additional tolerance for signs and
underscores is not exercised by any pattern considered here). -/
def pyIntBase2 (cs : List Char) : Except PyErr Nat :=
  if cs ≠ [] ∧ cs.all (fun c => c = '0' ∨ c = '1') then
    Except.ok (cs.foldl (fun a c => 2 * a + (if c = '1' then 1 else 0)) 0)
  else Except.error PyErr.valueError

/-- Storing an int into a bytearray cell: values outside 0..255 raise
`ValueError`. -/
def baStore (v : Nat) : Except PyErr Nat :=
  if v < 256 then Except.ok v else Except.error PyErr.valueError

/-- The attribute values set up by `PCF8574.__init__` before the optional
pattern arguments are processed. -/
def init_state : PCFState :=
  { directions := List.replicate 8 UNDEF
    input := 0
    inverted := 0
    lstate := 0
    dstate := 0
    dstatef := false
    interrupt := 0
    changedPins := List.replicate 16 0 }

/-- The direction block of `PCF8574.__init__`:
`self._directions = bytearray(int(x) for x in direction)` followed by
`self._input[0] = int(''.join(reversed(direction)), 2)`. -/
def initDirStage (cs : List Char) : Except PyErr (List Nat × Nat) :=
  match pyIntDigits cs with
  | Except.error e => Except.error e
  | Except.ok ds =>
    match pyIntBase2 cs.reverse with
    | Except.error e => Except.error e
    | Except.ok v =>
      match baStore v with
      | Except.error e => Except.error e
      | Except.ok v2 => Except.ok (ds, v2)

/-- Parsing a pattern into a one-byte mask, as in
`self._inverted[0] = int(''.join(reversed(list(inverted))), 2)` and the
analogous `_lstate` assignment. -/
def initMaskStage (cs : List Char) : Except PyErr Nat :=
  match pyIntBase2 cs.reverse with
  | Except.error e => Except.error e
  | Except.ok v => baStore v

/-- The pattern-processing tail of `PCF8574.__init__`, in source order:
direction block, inverted block, state block.  Each pattern is parsed with
the string reversed, so its first character lands in bit 0.  The only bus
transaction is the single write at the end of the state block, so an
exception always propagates with no bytes written.  (`_dstate` is rebuilt
from values already below 256, so its two stores cannot fail.) -/
def pcf_init_exc (direction state inverted : Option (List Char)) :
    Except PyErr (PCFState × List Nat) :=
  let s0 := init_state
  let dirRes : Except PyErr (List Nat × Nat) :=
    match direction with
    | none => Except.ok (s0.directions, s0.input)
    | some cs => initDirStage cs
  match dirRes with
  | Except.error e => Except.error e
  | Except.ok dirPart =>
    let invRes : Except PyErr Nat :=
      match inverted with
      | none => Except.ok s0.inverted
      | some cs => initMaskStage cs
    match invRes with
    | Except.error e => Except.error e
    | Except.ok inv =>
      match state with
      | none =>
        Except.ok ({ s0 with
                       directions := dirPart.1
                       input := dirPart.2
                       inverted := inv }, [])
      | some cs =>
        match initMaskStage cs with
        | Except.error e => Except.error e
        | Except.ok ls =>
          let d := (ls ^^^ inv) ||| dirPart.2
          Except.ok ({ s0 with
                         directions := dirPart.1
                         input := dirPart.2
                         inverted := inv
                         lstate := ls
                         dstate := d }, [d])

/-- `PCF8574.__init__` as a `POut`.  When a pattern is malformed the
constructor propagates the exception and the object is never produced; the
state component of the error case is the pre-pattern state, and no byte has
been written. -/
def pcf_init (direction state inverted : Option (List Char)) : POut :=
  match pcf_init_exc direction state inverted with
  | Except.ok (s, w) => ⟨none, s, w⟩
  | Except.error e => ⟨some e, init_state, []⟩

/-! ### Bit-level helper lemmas -/

theorem testBit_alter_true (m p q : Nat) :
    (alter_bitmask m p true).testBit q = (m.testBit q || decide (p = q)) := by
  have h2 : (1 <<< p) = 2 ^ p := by simp [Nat.shiftLeft_eq]
  simp [alter_bitmask, Nat.testBit_lor, h2, Nat.testBit_two_pow]

theorem testBit_alter_false (m p q : Nat) :
    (alter_bitmask m p false).testBit q
      = (m.testBit q && (decide (q < 8) ^^ decide (p = q))) := by
  have h2 : (1 <<< p) = 2 ^ p := by simp [Nat.shiftLeft_eq]
  have h255 : Nat.testBit 255 q = decide (q < 8) := by
    have h : (255 : Nat) = 2 ^ 8 - 1 := by norm_num
    rw [h, Nat.testBit_two_pow_sub_one]
  simp [alter_bitmask, Nat.testBit_land, Nat.testBit_xor, h2, h255, Nat.testBit_two_pow]

theorem testBit_alter (m p q : Nat) (v : Bool) (hq : q < 8) :
    (alter_bitmask m p v).testBit q = if q = p then v else m.testBit q := by
  cases v with
  | true =>
    rw [testBit_alter_true]
    by_cases h : q = p
    · subst h; simp
    · have hd : decide (p = q) = false := decide_eq_false fun hh => h hh.symm
      simp [h, hd]
  | false =>
    rw [testBit_alter_false]
    by_cases h : q = p
    · subst h; simp [hq]
    · have hd : decide (p = q) = false := decide_eq_false fun hh => h hh.symm
      simp [h, hd, hq]

theorem alter_bitmask_idem (m p : Nat) (v : Bool) :
    alter_bitmask (alter_bitmask m p v) p v = alter_bitmask m p v := by
  apply Nat.eq_of_testBit_eq
  intro q
  cases v with
  | true =>
    rw [testBit_alter_true, testBit_alter_true]
    cases m.testBit q <;> cases hd : decide (p = q) <;> simp
  | false =>
    rw [testBit_alter_false, testBit_alter_false]
    cases m.testBit q <;> simp

theorem getBit_eq (m p : Nat) : getBit m p = if m.testBit p then 1 else 0 := by
  rw [getBit, Nat.and_one_is_mod, Nat.testBit_to_div_mod, Nat.shiftRight_eq_div_pow]
  rcases Nat.mod_two_eq_zero_or_one (m / 2 ^ p) with h | h <;> simp [h]

theorem xor_cancel_right (a b : Nat) : a ^^^ b ^^^ b = a := by
  simp [Nat.xor_assoc]

/-! ### Shape lemmas for the engine operations -/

theorem write_state_eq (s : PCFState) (hf : s.dstatef = false) :
    write_state s = ({ s with dstate := (s.lstate ^^^ s.inverted) ||| s.input },
      [(s.lstate ^^^ s.inverted) ||| s.input]) := by
  simp [write_state, hf]

theorem output_pin_eq (s : PCFState) (p : Nat) (b : Bool)
    (hf : s.dstatef = false) (hp : p < s.directions.length) :
    output_pin s p b =
      ⟨none,
       { s with
         directions := s.directions.set p OUTPUT
         inverted := alter_bitmask s.inverted p b
         input := alter_bitmask s.input p false
         lstate := s.dstate ^^^ alter_bitmask s.inverted p b
         dstate := s.dstate ||| alter_bitmask s.input p false },
       [s.dstate ||| alter_bitmask s.input p false]⟩ := by
  have hx : ((s.dstate ^^^ alter_bitmask s.inverted p b) ^^^ alter_bitmask s.inverted p b)
      = s.dstate := xor_cancel_right _ _
  simp [output_pin, write_state, hf, hp, hx]

theorem write_pin_output_eq (s : PCFState) (p : Nat) (v : Bool)
    (hf : s.dstatef = false) (hp : p < s.directions.length)
    (hd : s.directions.getD p UNDEF = OUTPUT) :
    write_pin s p v =
      ⟨none,
       { s with
         lstate := alter_bitmask s.lstate p v
         dstate := (alter_bitmask s.lstate p v ^^^ s.inverted) ||| s.input },
       [(alter_bitmask s.lstate p v ^^^ s.inverted) ||| s.input]⟩ := by
  have hd' : s.directions[p] = OUTPUT := by
    rwa [List.getD_eq_getElem?_getD, List.getElem?_eq_getElem hp, Option.getD_some] at hd
  simp [write_pin, write_state, hf, hp, hd, hd']

theorem invert_pin_eq (s : PCFState) (p : Nat) (b : Bool) (hf : s.dstatef = false) :
    invert_pin s p b =
      ({ s with
         inverted := alter_bitmask s.inverted p b
         lstate := s.dstate ^^^ alter_bitmask s.inverted p b
         dstate := s.dstate ||| s.input },
       [s.dstate ||| s.input]) := by
  have hx : ((s.dstate ^^^ alter_bitmask s.inverted p b) ^^^ alter_bitmask s.inverted p b)
      = s.dstate := xor_cancel_right _ _
  simp [invert_pin, write_state, hf, hx]

/-! ### Lemmas about the constructor's pattern parsing -/

theorem pyIntBase2_reverse_err (cs : List Char) (c : Char)
    (hc : c ∈ cs) (h0 : c ≠ '0') (h1 : c ≠ '1') :
    pyIntBase2 cs.reverse = Except.error PyErr.valueError := by
  have hcond :
      ¬(cs.reverse ≠ [] ∧ (cs.reverse.all fun c => decide (c = '0' ∨ c = '1')) = true) := by
    rintro ⟨-, hall⟩
    have := List.all_eq_true.mp hall c (List.mem_reverse.mpr hc)
    simp [h0, h1] at this
  simp only [pyIntBase2, if_neg hcond]

theorem pyIntBase2_err_eq (cs : List Char) (e : PyErr)
    (h : pyIntBase2 cs = Except.error e) : e = PyErr.valueError := by
  unfold pyIntBase2 at h
  split at h
  · cases h
  · cases h; rfl

theorem baStore_err_eq (v : Nat) (e : PyErr)
    (h : baStore v = Except.error e) : e = PyErr.valueError := by
  unfold baStore at h
  split at h
  · cases h
  · cases h; rfl

theorem pyIntDigits_err_eq (cs : List Char) (e : PyErr)
    (h : pyIntDigits cs = Except.error e) : e = PyErr.valueError := by
  unfold pyIntDigits at h
  split at h
  · cases h
  · cases h; rfl

theorem initMaskStage_err_eq (cs : List Char) (e : PyErr)
    (h : initMaskStage cs = Except.error e) : e = PyErr.valueError := by
  unfold initMaskStage at h
  cases h2 : pyIntBase2 cs.reverse with
  | error e2 =>
    simp only [h2] at h
    cases h
    exact pyIntBase2_err_eq _ _ h2
  | ok v =>
    simp only [h2] at h
    exact baStore_err_eq _ _ h

theorem initMaskStage_err (cs : List Char) (c : Char)
    (hc : c ∈ cs) (h0 : c ≠ '0') (h1 : c ≠ '1') :
    initMaskStage cs = Except.error PyErr.valueError := by
  unfold initMaskStage
  simp only [pyIntBase2_reverse_err cs c hc h0 h1]

theorem initDirStage_err_eq (cs : List Char) (e : PyErr)
    (h : initDirStage cs = Except.error e) : e = PyErr.valueError := by
  unfold initDirStage at h
  cases h1 : pyIntDigits cs with
  | error e1 =>
    simp only [h1] at h
    cases h
    exact pyIntDigits_err_eq _ _ h1
  | ok ds =>
    simp only [h1] at h
    cases h2 : pyIntBase2 cs.reverse with
    | error e2 =>
      simp only [h2] at h
      cases h
      exact pyIntBase2_err_eq _ _ h2
    | ok v =>
      simp only [h2] at h
      cases h3 : baStore v with
      | error e3 =>
        simp only [h3] at h
        cases h
        exact baStore_err_eq _ _ h3
      | ok v2 =>
        simp only [h3] at h
        cases h

theorem initDirStage_err (cs : List Char) (c : Char)
    (hdig : cs.all Char.isDigit = true)
    (hc : c ∈ cs) (h0 : c ≠ '0') (h1 : c ≠ '1') :
    initDirStage cs = Except.error PyErr.valueError := by
  unfold initDirStage
  have hds : pyIntDigits cs = Except.ok (cs.map fun c => c.toNat - 48) := by
    simp [pyIntDigits, hdig]
  simp only [hds, pyIntBase2_reverse_err cs c hc h0 h1]

theorem pcf_init_exc_nonbinary (dir st inv : Option (List Char))
    (hd : ∀ cs, dir = some cs → cs.all Char.isDigit = true)
    (hs : ∀ cs, st = some cs → cs.all Char.isDigit = true)
    (hi : ∀ cs, inv = some cs → cs.all Char.isDigit = true)
    (hbad : (∃ cs, dir = some cs ∧ ∃ c ∈ cs, c ≠ '0' ∧ c ≠ '1')
          ∨ (∃ cs, st = some cs ∧ ∃ c ∈ cs, c ≠ '0' ∧ c ≠ '1')
          ∨ (∃ cs, inv = some cs ∧ ∃ c ∈ cs, c ≠ '0' ∧ c ≠ '1')) :
    pcf_init_exc dir st inv = Except.error PyErr.valueError := by
  rcases hbad with ⟨cs, hcs, c, hc, h0, h1⟩ | ⟨cs, hcs, c, hc, h0, h1⟩ | ⟨cs, hcs, c, hc, h0, h1⟩
  · subst hcs
    simp only [pcf_init_exc, initDirStage_err cs c (hd cs rfl) hc h0 h1]
  · subst hcs
    have hstbad : initMaskStage cs = Except.error PyErr.valueError :=
      initMaskStage_err cs c hc h0 h1
    cases dir with
    | none =>
      cases inv with
      | none => simp only [pcf_init_exc, hstbad]
      | some ics =>
        cases hi1 : initMaskStage ics with
        | error e =>
          have he : e = PyErr.valueError := initMaskStage_err_eq _ _ hi1
          subst he
          simp only [pcf_init_exc, hi1]
        | ok v => simp only [pcf_init_exc, hi1, hstbad]
    | some dcs =>
      cases hd1 : initDirStage dcs with
      | error e =>
        have he : e = PyErr.valueError := initDirStage_err_eq _ _ hd1
        subst he
        simp only [pcf_init_exc, hd1]
      | ok dv =>
        cases inv with
        | none => simp only [pcf_init_exc, hd1, hstbad]
        | some ics =>
          cases hi1 : initMaskStage ics with
          | error e =>
            have he : e = PyErr.valueError := initMaskStage_err_eq _ _ hi1
            subst he
            simp only [pcf_init_exc, hd1, hi1]
          | ok v => simp only [pcf_init_exc, hd1, hi1, hstbad]
  · subst hcs
    have hinvbad : initMaskStage cs = Except.error PyErr.valueError :=
      initMaskStage_err cs c hc h0 h1
    cases dir with
    | none => simp only [pcf_init_exc, hinvbad]
    | some dcs =>
      cases hd1 : initDirStage dcs with
      | error e =>
        have he : e = PyErr.valueError := initDirStage_err_eq _ _ hd1
        subst he
        simp only [pcf_init_exc, hd1]
      | ok dv => simp only [pcf_init_exc, hd1, hinvbad]

/-! ### Claim theorems -/

/-- C1 (code bug evaluated): construct with `direction="11000000"` (pins 0
and 1 input), `state="00000000"`, no inversion; then `_poll` runs with the
bus returning raw byte 1 (pin 0 now high).  Because the loop guard compares
the int `self._directions[pin]` with the bytearray `self._input`, which is
never equal, no report slot and no stored logical bit is updated — contrary
to the claim's `changed_pins[0]=1, changed_pins[1]=1` — and only the
interrupt counter is incremented. -/
theorem poll_ignores_input_changes_eval :
    (pcf_init (some ('1' :: '1' :: List.replicate 6 '0'))
      (some (List.replicate 8 '0')) none).err = none ∧
    (pcf_init (some ('1' :: '1' :: List.replicate 6 '0'))
      (some (List.replicate 8 '0')) none).s.lstate = 0 ∧
    (pcf_init (some ('1' :: '1' :: List.replicate 6 '0'))
      (some (List.replicate 8 '0')) none).s.directions.getD 0 UNDEF = INPUT ∧
    (poll (pcf_init (some ('1' :: '1' :: List.replicate 6 '0'))
      (some (List.replicate 8 '0')) none).s 1).changedPins = List.replicate 16 0 ∧
    (poll (pcf_init (some ('1' :: '1' :: List.replicate 6 '0'))
      (some (List.replicate 8 '0')) none).s 1).lstate = 0 ∧
    (poll (pcf_init (some ('1' :: '1' :: List.replicate 6 '0'))
      (some (List.replicate 8 '0')) none).s 1).interrupt = 1 := by decide

/-- C2 (code bug evaluated): on a freshly constructed instance,
`input_pin(3)` raises `TypeError` (it stores the bytearray `self._input`
into `self._directions[3]` instead of `self.INPUT`), and both setters raise
`TypeError` on a list argument (the loop body shifts by the list `pin`
itself instead of the loop variable `p`), so neither form performs the
direction update and single write the claim describes. -/
theorem direction_setters_raise_eval :
    (input_pin (pcf_init none none none).s 3 false).err = some PyErr.typeError ∧
    (input_pin_list (pcf_init none none none).s (1 :: 2 :: []) false).err
      = some PyErr.typeError ∧
    (output_pin_list (pcf_init none none none).s (1 :: 2 :: []) false).err
      = some PyErr.typeError ∧
    (input_pin (pcf_init none none none).s 3 false).s.directions
      = List.replicate 8 UNDEF ∧
    (input_pin (pcf_init none none none).s 3 false).writes = [] := by decide

/-- C3 (counterexample): the constructor accepts a direction pattern of
length 7 without raising anything — there is no length validation and no
`ConfigurationError` class in the code — so the claim that every non-8-char
pattern fails construction is false. -/
theorem init_length7_accepted :
    pcf_init (some (List.replicate 7 '0')) none none =
      ⟨none, { init_state with directions := List.replicate 7 0 }, []⟩ := by decide

/-- C3 (amended): whenever every supplied pattern consists of decimal
digits and at least one supplied pattern contains a digit other than
'0'/'1', construction fails by raising `ValueError` (Python's `int`
rejects it; no `ConfigurationError` type exists in the code) and zero bus
transactions are performed before the failure. -/
theorem init_nonbinary_digit_fails (dir st inv : Option (List Char))
    (hd : ∀ cs, dir = some cs → cs.all Char.isDigit = true)
    (hs : ∀ cs, st = some cs → cs.all Char.isDigit = true)
    (hi : ∀ cs, inv = some cs → cs.all Char.isDigit = true)
    (hbad : (∃ cs, dir = some cs ∧ ∃ c ∈ cs, c ≠ '0' ∧ c ≠ '1')
          ∨ (∃ cs, st = some cs ∧ ∃ c ∈ cs, c ≠ '0' ∧ c ≠ '1')
          ∨ (∃ cs, inv = some cs ∧ ∃ c ∈ cs, c ≠ '0' ∧ c ≠ '1')) :
    (pcf_init dir st inv).err = some PyErr.valueError ∧
    (pcf_init dir st inv).writes = [] := by
  have h := pcf_init_exc_nonbinary dir st inv hd hs hi hbad
  simp [pcf_init, h]

/-- Witness for `init_nonbinary_digit_fails` at `direction="20000000"`. -/
theorem init_nonbinary_digit_fails_witness :
    (pcf_init (some ('2' :: List.replicate 7 '0')) none none).err
      = some PyErr.valueError ∧
    (pcf_init (some ('2' :: List.replicate 7 '0')) none none).writes = [] :=
  init_nonbinary_digit_fails (some ('2' :: List.replicate 7 '0')) none none
    (fun cs hcs => by cases hcs; decide)
    (fun cs hcs => by cases hcs)
    (fun cs hcs => by cases hcs)
    (Or.inl ⟨('2' :: List.replicate 7 '0'), rfl, '2', by decide, by decide, by decide⟩)

/-- C4: construction with `direction="11110000"`, `inverted="00001111"`,
`state="11110000"` (first character = pin 0 = bit 0) yields
`input_mask = 0b00001111` and `inverted_mask = 0b11110000`, and issues
exactly one physical write whose byte is
`(state_mask XOR inverted_mask) OR input_mask`. -/
theorem init_masks_and_write_eval :
    (pcf_init (some (List.replicate 4 '1' ++ List.replicate 4 '0'))
      (some (List.replicate 4 '1' ++ List.replicate 4 '0'))
      (some (List.replicate 4 '0' ++ List.replicate 4 '1'))).err = none ∧
    (pcf_init (some (List.replicate 4 '1' ++ List.replicate 4 '0'))
      (some (List.replicate 4 '1' ++ List.replicate 4 '0'))
      (some (List.replicate 4 '0' ++ List.replicate 4 '1'))).s.input = 0b00001111 ∧
    (pcf_init (some (List.replicate 4 '1' ++ List.replicate 4 '0'))
      (some (List.replicate 4 '1' ++ List.replicate 4 '0'))
      (some (List.replicate 4 '0' ++ List.replicate 4 '1'))).s.inverted = 0b11110000 ∧
    (pcf_init (some (List.replicate 4 '1' ++ List.replicate 4 '0'))
      (some (List.replicate 4 '1' ++ List.replicate 4 '0'))
      (some (List.replicate 4 '0' ++ List.replicate 4 '1'))).writes
      = [(0b00001111 ^^^ 0b11110000) ||| 0b00001111] := by decide

/-- C5: `write_pin` on a pin whose direction is not `OUTPUT` (still `UNDEF`
or `INPUT`) raises nothing, changes no state component, and performs no bus
transaction. -/
theorem write_pin_non_output_noop (s : PCFState) (p : Nat) (v : Bool)
    (hp : p < s.directions.length) (hd : s.directions.getD p UNDEF ≠ OUTPUT) :
    write_pin s p v = ⟨none, s, []⟩ := by
  have hd' : ¬ s.directions[p] = OUTPUT := by
    rw [List.getD_eq_getElem?_getD, List.getElem?_eq_getElem hp, Option.getD_some] at hd
    exact hd
  simp [write_pin, hp, hd, hd']

/-- Witness for `write_pin_non_output_noop` on a fresh instance, pin 0. -/
theorem write_pin_non_output_noop_witness :
    write_pin init_state 0 true = ⟨none, init_state, []⟩ :=
  write_pin_non_output_noop init_state 0 true (by decide) (by decide)

/-- C6: with a bus that echoes the last written byte back on reads,
configuring pin `p` as non-inverted output (`output_pin p`) and then
writing bit `v` (`write_pin p v`) makes a subsequent `read_pin p` return
`v`: the byte written by `write_pin` carries `v` at bit `p`, and reading it
back through the unchanged inversion mask reproduces `v`. -/
theorem output_write_read_roundtrip (s : PCFState) (p : Nat) (v : Bool)
    (hf : s.dstatef = false) (hp8 : p < 8) (hlen : s.directions.length = 8) :
    (read_pin (write_pin (output_pin s p false).s p v).s
      ((write_pin (output_pin s p false).s p v).writes.getD 0 0) p).2
      = (if v then 1 else 0) := by
  have hp : p < s.directions.length := by omega
  have hd2 : (s.directions.set p OUTPUT).getD p UNDEF = OUTPUT := by
    simp [List.getD_eq_getElem?_getD, List.getElem?_set, hp]
  have hi2 : (alter_bitmask s.inverted p false).testBit p = false := by
    rw [testBit_alter s.inverted p p false hp8]; simp
  have hn2 : (alter_bitmask s.input p false).testBit p = false := by
    rw [testBit_alter s.input p p false hp8]; simp
  have hl3 : ∀ L : Nat, (alter_bitmask L p v).testBit p = v := fun L => by
    rw [testBit_alter L p p v hp8]; simp
  simp only [output_pin, write_pin, read_pin, read_state, write_state, hf, hp,
    List.length_set, if_true, if_pos, hd2, Bool.false_eq_true, if_false, List.getD]
  simp [hf, hp, hd2, getBit_eq, Nat.testBit_xor, Nat.testBit_lor, hi2, hn2, hl3]

/-- Witness for `output_write_read_roundtrip` on a fresh instance, pin 0,
value 1. -/
theorem output_write_read_roundtrip_witness :
    (read_pin (write_pin (output_pin init_state 0 false).s 0 true).s
      ((write_pin (output_pin init_state 0 false).s 0 true).writes.getD 0 0) 0).2
      = (if true then 1 else 0) :=
  output_write_read_roundtrip init_state 0 true (by decide) (by decide) (by decide)

/-- C7: toggling the inversion of pin `p` via `invert_pin` (calling it with
the complement of the current inversion bit) changes no pin's direction and
no input-mask bit, issues one write whose byte has the same bit `p` as the
current digital state whenever `p` is an output pin (input-mask bit clear),
and flips the logical value a subsequent `read_pin p` returns, whatever raw
byte the bus produces. -/
theorem invert_pin_flips_read_preserves_raw (s : PCFState) (p raw : Nat)
    (hf : s.dstatef = false) (hp8 : p < 8)
    (hout : s.input.testBit p = false) :
    (invert_pin s p (! s.inverted.testBit p)).1.directions = s.directions ∧
    (invert_pin s p (! s.inverted.testBit p)).1.input = s.input ∧
    (invert_pin s p (! s.inverted.testBit p)).2 = [s.dstate ||| s.input] ∧
    (s.dstate ||| s.input).testBit p = s.dstate.testBit p ∧
    (read_pin (invert_pin s p (! s.inverted.testBit p)).1 raw p).2
      = 1 - (read_pin s raw p).2 ∧
    (read_pin s raw p).2 ≤ 1 := by
  rw [invert_pin_eq s p (! s.inverted.testBit p) hf]
  refine ⟨rfl, rfl, rfl, by simp [Nat.testBit_lor, hout], ?_, ?_⟩
  · have htb : ∀ w : Bool, (alter_bitmask s.inverted p w).testBit p = w := fun w => by
      rw [testBit_alter s.inverted p p w hp8]; simp
    cases hA : raw.testBit p <;> cases hB : s.inverted.testBit p <;>
      simp [read_pin, read_state, hf, getBit_eq, Nat.testBit_xor, hA, hB, htb]
  · cases hA : (raw ^^^ s.inverted).testBit p <;>
      simp [read_pin, read_state, hf, getBit_eq, hA]

/-- Witness for `invert_pin_flips_read_preserves_raw` on a fresh instance,
pin 0, raw byte 0. -/
theorem invert_pin_flips_read_preserves_raw_witness :
    (invert_pin init_state 0 (! init_state.inverted.testBit 0)).1.directions
      = init_state.directions ∧
    (invert_pin init_state 0 (! init_state.inverted.testBit 0)).1.input
      = init_state.input ∧
    (invert_pin init_state 0 (! init_state.inverted.testBit 0)).2
      = [init_state.dstate ||| init_state.input] ∧
    (init_state.dstate ||| init_state.input).testBit 0
      = init_state.dstate.testBit 0 ∧
    (read_pin (invert_pin init_state 0 (! init_state.inverted.testBit 0)).1 0 0).2
      = 1 - (read_pin init_state 0 0).2 ∧
    (read_pin init_state 0 0).2 ≤ 1 :=
  invert_pin_flips_read_preserves_raw init_state 0 0 (by decide) (by decide) (by decide)

theorem lor_absorb (a n : Nat) : (a ||| n) ||| n = a ||| n := by
  apply Nat.eq_of_testBit_eq
  intro q
  simp [Nat.testBit_lor, Bool.or_assoc]

/-- C8 (amended): `output_pin(p, b)` applied twice with identical arguments
leaves the instance in the same full state as applying it once, provided
every input-mask bit (other than p) is set in the current digital state —
which holds whenever the digital state was produced by a write, since
writes force input-pin lines high.  Without that proviso the second call's
resync `_lstate = _dstate ^ _inverted` picks up the forced-high input bits
and the logical state differs (see the counterexample). -/
theorem output_pin_idempotent (s : PCFState) (p : Nat) (b : Bool)
    (hf : s.dstatef = false) (hp : p < s.directions.length)
    (hsub : alter_bitmask s.input p false ||| s.dstate = s.dstate) :
    (output_pin (output_pin s p b).s p b).s = (output_pin s p b).s := by
  have hE1 := output_pin_eq s p b hf hp
  have hf1 : (output_pin s p b).s.dstatef = false := by rw [hE1]; exact hf
  have hp1 : p < (output_pin s p b).s.directions.length := by
    rw [hE1]; simpa using hp
  have hE2 := output_pin_eq (output_pin s p b).s p b hf1 hp1
  rw [hE2, hE1]
  have hd : s.dstate ||| alter_bitmask s.input p false = s.dstate := by
    rw [Nat.lor_comm]; exact hsub
  simp [List.set_set, alter_bitmask_idem, hd, lor_absorb]

/-- Witness for `output_pin_idempotent` on a fresh instance, pin 0. -/
theorem output_pin_idempotent_witness :
    (output_pin (output_pin init_state 0 false).s 0 false).s
      = (output_pin init_state 0 false).s :=
  output_pin_idempotent init_state 0 false (by decide) (by decide) (by decide)

/-- C8 (counterexample): a reachable state on which `output_pin(0)` twice
differs from `output_pin(0)` once.  Construct with `direction="01000000"`
(pin 1 input) and `state="00000000"` — the constructor writes byte 2 — then
`_read_state` runs with the bus returning 0 (the peripheral pulls input
pin 1 low).  The first `output_pin(0)` resyncs `_lstate` from the read
digital state 0 and then writes, forcing the input bit high in `_dstate`;
the second call resyncs `_lstate` from that forced-high digital state, so
the logical states differ. -/
theorem output_pin_twice_ne_once_cex :
    (pcf_init (some ('0' :: '1' :: List.replicate 6 '0'))
      (some (List.replicate 8 '0')) none).err = none ∧
    (output_pin (output_pin (read_state (pcf_init
        (some ('0' :: '1' :: List.replicate 6 '0'))
        (some (List.replicate 8 '0')) none).s 0) 0 false).s 0 false).s ≠
      (output_pin (read_state (pcf_init
        (some ('0' :: '1' :: List.replicate 6 '0'))
        (some (List.replicate 8 '0')) none).s 0) 0 false).s := by decide

theorem poll_step_interrupt (rs : Nat) (st : PCFState) (pin : Nat) :
    (poll_step rs st pin).interrupt = st.interrupt := by
  unfold poll_step
  split
  · split <;> rfl
  · rfl

theorem foldl_poll_step_interrupt (rs : Nat) (l : List Nat) (st : PCFState) :
    (l.foldl (poll_step rs) st).interrupt = st.interrupt := by
  induction l generalizing st with
  | nil => rfl
  | cons a l ih => simp [List.foldl_cons, ih, poll_step_interrupt]

theorem poll_interrupt (s : PCFState) (raw : Nat) :
    (poll s raw).interrupt = s.interrupt + 1 := by
  simp [poll, foldl_poll_step_interrupt]

theorem reset_int_flag (s : PCFState) (p : Nat)
    (hp : p < 8) (hlen : s.changedPins.length = 16) :
    (reset_int s).changedPins.getD (p * 2) 0 = 0 := by
  have hr : List.range 8 = [0, 1, 2, 3, 4, 5, 6, 7] := rfl
  simp only [reset_int, hr, List.foldl_cons, List.foldl_nil]
  interval_cases p <;>
    simp [List.getD_eq_getElem?_getD, List.getElem?_set, List.length_set, hlen]

theorem reset_int_value_slot (s : PCFState) (p : Nat)
    (hp : p < 8) (hlen : s.changedPins.length = 16) :
    (reset_int s).changedPins.getD (p * 2 + 1) 0
      = s.changedPins.getD (p * 2 + 1) 0 := by
  have hr : List.range 8 = [0, 1, 2, 3, 4, 5, 6, 7] := rfl
  simp only [reset_int, hr, List.foldl_cons, List.foldl_nil]
  interval_cases p <;>
    simp [List.getD_eq_getElem?_getD, List.getElem?_set, List.length_set, hlen]

/-- C9: `reset_int` zeroes every change flag `changed_pins[2p]`, leaves the
value slots `changed_pins[2p+1]` untouched, and decrements the interrupt
counter by exactly one, so one `_poll` (which increments the counter once)
followed by one `reset_int` restores the counter to its pre-poll value. -/
theorem reset_int_spec (s : PCFState) (raw : Nat) (p : Nat)
    (hp : p < 8) (hlen : s.changedPins.length = 16) :
    (reset_int s).changedPins.getD (p * 2) 0 = 0 ∧
    (reset_int s).changedPins.getD (p * 2 + 1) 0
      = s.changedPins.getD (p * 2 + 1) 0 ∧
    (reset_int s).interrupt = s.interrupt - 1 ∧
    (reset_int (poll s raw)).interrupt = s.interrupt := by
  refine ⟨reset_int_flag s p hp hlen, reset_int_value_slot s p hp hlen, rfl, ?_⟩
  show (poll s raw).interrupt - 1 = s.interrupt
  rw [poll_interrupt]
  omega

/-- Witness for `reset_int_spec`: a state with every report slot set to 1
and counter 5; after `reset_int` the flag slot 0 is cleared, the value
slot 1 still holds 1, the counter is 4, and poll-then-reset restores 5. -/
theorem reset_int_spec_witness :
    (reset_int { init_state with changedPins := List.replicate 16 1, interrupt := 5 }).changedPins.getD 0 0 = 0 ∧
    (reset_int { init_state with changedPins := List.replicate 16 1, interrupt := 5 }).changedPins.getD 1 0
      = ({ init_state with changedPins := List.replicate 16 1, interrupt := 5 } : PCFState).changedPins.getD 1 0 ∧
    (reset_int { init_state with changedPins := List.replicate 16 1, interrupt := 5 }).interrupt
      = ({ init_state with changedPins := List.replicate 16 1, interrupt := 5 } : PCFState).interrupt - 1 ∧
    (reset_int (poll { init_state with changedPins := List.replicate 16 1, interrupt := 5 } 0)).interrupt
      = ({ init_state with changedPins := List.replicate 16 1, interrupt := 5 } : PCFState).interrupt :=
  reset_int_spec { init_state with changedPins := List.replicate 16 1, interrupt := 5 }
    0 0 (by decide) (by decide)

theorem reset_int_iterate_interrupt (s : PCFState) (n : Nat) :
    (reset_int^[n] s).interrupt = s.interrupt - n := by
  induction n generalizing s with
  | zero => simp
  | succ k ih =>
    rw [Function.iterate_succ_apply, ih]
    show (s.interrupt - 1) - (k : Int) = s.interrupt - ((k : Nat) + 1 : Nat)
    push_cast
    ring

/-- C10: `reset_int` decrements the interrupt counter unconditionally and
without a lower bound: from counter 0 one call yields -1, n calls yield -n,
and the change flags are cleared regardless. -/
theorem reset_int_unbounded_decrement (s : PCFState) (n : Nat) (p : Nat)
    (hp : p < 8) (hlen : s.changedPins.length = 16) :
    (reset_int s).interrupt = s.interrupt - 1 ∧
    (s.interrupt = 0 → (reset_int s).interrupt = -1) ∧
    (reset_int^[n] s).interrupt = s.interrupt - n ∧
    (reset_int s).changedPins.getD (p * 2) 0 = 0 := by
  refine ⟨rfl, ?_, reset_int_iterate_interrupt s n, reset_int_flag s p hp hlen⟩
  intro h0
  show s.interrupt - 1 = -1
  rw [h0]
  rfl

/-- Witness for `reset_int_unbounded_decrement` on a fresh instance
(counter 0), three iterations driving the counter to -3. -/
theorem reset_int_unbounded_decrement_witness :
    (reset_int init_state).interrupt = init_state.interrupt - 1 ∧
    (init_state.interrupt = 0 → (reset_int init_state).interrupt = -1) ∧
    (reset_int^[3] init_state).interrupt = init_state.interrupt - 3 ∧
    (reset_int init_state).changedPins.getD 0 0 = 0 :=
  reset_int_unbounded_decrement init_state 3 0 (by decide) (by decide)
